import Mathlib

/-!
Verification of the `whoyougonnacall` alert-dispatch core.

This file is a shallow embedding of the program's data model and of the pure
parts of its operations, translated from the Rust sources:

* `src/twilio.rs` — the dispatcher: per-number response classification and
  the aggregation of per-number dial outcomes into an overall result;
* `src/opsgenie.rs` — the roster resolver: phone-number normalization,
  contact filtering, sort/dedup, and assembly of `AlertInfo`;
* `src/util.rs` — the transport error taxonomy (`UtilError` here);
* `src/config.rs` — the credential model, as far as its textual rendering
  is concerned.

Effects (HTTP calls, URL joining) are modelled by passing their outcomes in
as explicit arguments (`Except` values or response oracles), so every
definition is executable and the control flow after each effect follows the
source line by line.
-/

/-! ## twilio.rs : data model -/

/-- `TwilioResponse` from twilio.rs: the JSON body of a dial response,
carrying the provider status string. -/
structure TwilioResponse where
  status : String
deriving DecidableEq, Repr

/-- `OverallResult` from twilio.rs. -/
inductive OverallResult where
  | Success
  | PartialSuccess
  | Failure
deriving DecidableEq, Repr

/-- `DialNumberResult` from twilio.rs: the per-number dial outcome. -/
inductive DialNumberResult where
  | Success (number : String)
  | Failure (number : String) (error : String)
  | Unknown (number : String) (status : String)
deriving DecidableEq, Repr

/-- `AlertResult` from twilio.rs. -/
structure AlertResult where
  overall_result : OverallResult
  detailed_result : List DialNumberResult
deriving DecidableEq, Repr

/-! ## util.rs : transport error taxonomy

`crate::util::Error`.  The `reqwest::Error` sources carried by the first two
variants are opaque library values; they are modelled by their rendered
message, which the embedding never inspects. HTTP status codes are modelled
as `Nat`. -/

/-- `Error` from util.rs. -/
inductive UtilError where
  | HttpRequest (source : String)
  | ParseJson (source : String)
  | HttpErrorResponse (status : Nat) (url : String) (text : String)
  | HttpErrorResponseUndecodableText (status : Nat) (url : String) (encoding_error : String)
deriving DecidableEq, Repr

/-- Debug rendering of a string (`{:?}`), as used by the snafu display
strings in util.rs. Inner escaping is irrelevant to every claim and is
omitted. -/
def debugQuote (s : String) : String :=
  "\"" ++ s ++ "\""

/-- `e.to_string()` for `crate::util::Error`: snafu derives `Display` from
the `#[snafu(display(...))]` attribute of each variant (util.rs lines
8-26); the source error is not part of the display. -/
def errToString : UtilError → String
  | .HttpRequest _ => "failed to execute request"
  | .ParseJson _ => "failed to parse json response"
  | .HttpErrorResponse status url text =>
      "http response " ++ toString status ++ " for " ++ debugQuote url ++
        " with response body " ++ debugQuote text
  | .HttpErrorResponseUndecodableText status url _ =>
      "http response " ++ toString status ++ " for " ++ debugQuote url ++
        " with an undecodable response body"

/-! ## twilio.rs : errors and the dispatcher -/

/-- `url::ParseError`, restricted to the variant relevant here:
`Url::join` fails with `RelativeUrlWithCannotBeABaseBase` when the
configured base URL cannot be a base (e.g. a `mailto:` URL, which
`Url::parse` accepts at startup). -/
inductive UrlParseError where
  | RelativeUrlWithCannotBeABaseBase
  | Other (msg : String)
deriving DecidableEq, Repr

/-- A parsed `url::Url`, opaque to the claims; only its presence matters. -/
structure Url where
  raw : String
deriving DecidableEq, Repr

/-- `twilio::Error` from twilio.rs. -/
inductive TwilioError where
  | RunWorkflow (source : UtilError)
  | BuildUrl (source : UrlParseError)
deriving DecidableEq, Repr

/-- The response classification in the result loop of `alert`
(twilio.rs lines 101-118): a transport error becomes `Failure` with the
rendered error, an HTTP success with status `"active"` becomes `Success`,
any other successful response becomes `Unknown` with its status. -/
def classifyDialResult (number : String) (result : Except UtilError TwilioResponse) :
    DialNumberResult :=
  match result with
  | .ok response =>
      if response.status = "active" then
        DialNumberResult.Success number
      else
        DialNumberResult.Unknown number response.status
  | .error e => DialNumberResult.Failure number (errToString e)

/-- The closure `|s| match s { Success {..} => true, _ => false }` from
`update_overall_result` (twilio.rs lines 161-164). -/
def isSuccessCall : DialNumberResult → Bool
  | .Success _ => true
  | _ => false

/-- The closure testing for `Unknown` (twilio.rs lines 166-169). -/
def isUnknownCall : DialNumberResult → Bool
  | .Unknown _ _ => true
  | _ => false

/-- The closure testing for `Failure` (twilio.rs lines 171-174). -/
def isFailureCall : DialNumberResult → Bool
  | .Failure _ _ => true
  | _ => false

/-- `AlertResult::update_overall_result` (twilio.rs lines 160-184),
modelled as a function from the receiver to the updated receiver. -/
def update_overall_result (r : AlertResult) : AlertResult :=
  let succeeded_calls := r.detailed_result.any isSuccessCall
  let unknown_calls := r.detailed_result.any isUnknownCall
  let failed_calls := r.detailed_result.any isFailureCall
  { r with
    overall_result :=
      if succeeded_calls && (unknown_calls || failed_calls) then
        OverallResult.PartialSuccess
      else if succeeded_calls && !(unknown_calls || failed_calls) then
        OverallResult.Success
      else
        OverallResult.Failure }

/-- `twilio::alert` (twilio.rs lines 43-126).  The URL join of base URL and
workflow id (lines 52-55) is passed in as its outcome `join_result`; the
per-number HTTP POST (lines 75-93) is passed in as the oracle `dial` from
number to response.  On a failed join, `alert` returns
`Err(Error::BuildUrl)`; otherwise it collects one classified
`DialNumberResult` per number, in input order, and applies
`update_overall_result`. -/
def alert (numbers : List String) (join_result : Except UrlParseError Url)
    (dial : String → Except UtilError TwilioResponse) :
    Except TwilioError AlertResult :=
  match join_result with
  | .error e => .error (TwilioError.BuildUrl e)
  | .ok _ =>
      let results := numbers.map (fun number => (number, dial number))
      let response : AlertResult :=
        { overall_result := OverallResult.Success
          detailed_result := results.map (fun p => classifyDialResult p.1 p.2) }
      .ok (update_overall_result response)

/-! ## opsgenie.rs : data model -/

/-- `UserPhoneNumber` from opsgenie.rs: one resolved roster entry. -/
structure UserPhoneNumber where
  name : String
  phone : List String
deriving DecidableEq, Repr

/-- `OnCallResultData` from opsgenie.rs. -/
structure OnCallResultData where
  on_call_recipients : List String
deriving DecidableEq, Repr

/-- `OnCallResult` from opsgenie.rs: the parsed roster-query response. -/
structure OnCallResult where
  data : OnCallResultData
deriving DecidableEq, Repr

/-- `UserContact` from opsgenie.rs: one entry of a user's contact list as
returned by the provider. -/
structure UserContact where
  «to» : String
  id : String
  contactMethod : String
  enabled : Bool
deriving DecidableEq, Repr

/-- `AlertInfo` from main.rs: the lookup result returned to the caller. -/
structure AlertInfo where
  username : String
  phone_number : String
  full_information : List UserPhoneNumber
deriving DecidableEq, Repr

/-- `opsgenie::Error` from opsgenie.rs. -/
inductive OpsgenieError where
  | RequestOnCallPerson (source : UtilError)
  | RequestPhoneNumberForPerson (source : UtilError) (username : String)
  | NoOnCallPerson
  | NoPhoneNumber (username : String)
deriving DecidableEq, Repr

/-! ## opsgenie.rs : phone-number processing -/

/-- `format_phone_number` (opsgenie.rs lines 192-195):
`number.replace("-", "")` removes every occurrence of the one-character
pattern `-`, i.e. filters the dash out of the character sequence, and
`format!("+{}", number)` prefixes `+`. -/
def format_phone_number (number : String) : String :=
  let replaced := String.mk (number.data.filter (fun c => c ≠ '-'))
  "+" ++ replaced

/-- Lexicographic comparison of character sequences.  Rust's `Ord` for
`String` compares UTF-8 bytes lexicographically, which coincides with
lexicographic comparison of Unicode scalar values, i.e. of `List Char`. -/
def charListLe : List Char → List Char → Bool
  | [], _ => true
  | _ :: _, [] => false
  | a :: as, b :: bs => if a = b then charListLe as bs else decide (a < b)

/-- `a <= b` for Rust `String`. -/
def strLe (a b : String) : Bool :=
  charListLe a.data b.data

/-- Insert into a sorted list, keeping it sorted. -/
def insertSorted (a : String) : List String → List String
  | [] => [a]
  | b :: l => if strLe a b then a :: b :: l else b :: insertSorted a l

/-- `Vec::sort` on strings (opsgenie.rs line 186): a stable comparison sort
by the total lexicographic order on `String`.  Since that order is total
and antisymmetric, any correct sort produces the same list; an insertion
sort is used here so that the model evaluates by kernel reduction. -/
def vecSort : List String → List String
  | [] => []
  | b :: l => insertSorted b (vecSort l)

/-- `Vec::dedup` (opsgenie.rs line 187): removes consecutive repeated
elements. -/
def vecDedup : List String → List String
  | [] => []
  | [a] => [a]
  | a :: b :: rest =>
      if a = b then vecDedup (b :: rest) else a :: vecDedup (b :: rest)

/-- The pure part of `get_phone_number` (opsgenie.rs lines 177-189), applied
to the `userContacts` list of the already-fetched contact-information
response: keep contacts whose `contactMethod` is `"voice"` or `"sms"`,
normalize each `to` number, then sort and dedup. -/
def get_phone_number (contacts : List UserContact) : List String :=
  let numbers :=
    (contacts.filter
        (fun user_contact =>
          user_contact.contactMethod == "voice" || user_contact.contactMethod == "sms")).map
      (fun user_contact => format_phone_number user_contact.«to»)
  vecDedup (vecSort numbers)

/-! ## opsgenie.rs : roster resolution -/

/-- The contact-fetch-and-process step for one user: the HTTP GET inside
`get_phone_number` (opsgenie.rs lines 169-174) is passed in as the oracle
`contactsOf`, and the pure processing of the returned `userContacts` list
follows. -/
def get_phone_number_for (contactsOf : String → Except UtilError (List UserContact))
    (username : String) : Except UtilError (List String) :=
  (contactsOf username).map (fun contacts => get_phone_number contacts)

/-- The per-recipient lookup loop of `get_oncall_number` (opsgenie.rs lines
109-121): sequentially, in provider order, resolve each recipient's phone
list; the first failing lookup aborts with
`RequestPhoneNumberForPerson{username}`. -/
def build_result_list (contactsOf : String → Except UtilError (List UserContact)) :
    List String → Except OpsgenieError (List UserPhoneNumber)
  | [] => .ok []
  | user :: rest =>
      match get_phone_number_for contactsOf user with
      | .error e => .error (OpsgenieError.RequestPhoneNumberForPerson e user)
      | .ok phone_number =>
          match build_result_list contactsOf rest with
          | .error e => .error e
          | .ok tail => .ok ({ name := user, phone := phone_number } :: tail)

/-- `get_oncall_number` (opsgenie.rs lines 67-133) after its two effects are
made explicit: `persons_on_call` is the outcome of the roster query (lines
90-99) and `contactsOf` the per-user contact fetch.  Control flow follows
the source: transport failure → `RequestOnCallPerson`; empty recipient
list → `NoOnCallPerson` (lines 103-107); the lookup loop; then the primary
is `result_list.get(0)` and its `phone.get(0)`, failing with
`NoPhoneNumber{username}` when the first entry has no number (lines
124-126). -/
def get_oncall_number (persons_on_call : Except UtilError OnCallResult)
    (contactsOf : String → Except UtilError (List UserContact)) :
    Except OpsgenieError AlertInfo :=
  match persons_on_call with
  | .error e => .error (OpsgenieError.RequestOnCallPerson e)
  | .ok persons =>
      match persons.data.on_call_recipients.head? with
      | none => .error OpsgenieError.NoOnCallPerson
      | some _ =>
          match build_result_list contactsOf persons.data.on_call_recipients with
          | .error e => .error e
          | .ok result_list =>
              match result_list.head? with
              | none => .error OpsgenieError.NoOnCallPerson
              | some user =>
                  match user.phone.head? with
                  | none => .error (OpsgenieError.NoPhoneNumber user.name)
                  | some phone_number =>
                      .ok { username := user.name
                            phone_number := phone_number
                            full_information := result_list }

/-! ## config.rs / opsgenie.rs : credential rendering

`get_oncall_number` inserts the *exposed* credential into the outgoing
`HeaderMap` (opsgenie.rs line 85: `credentials.expose_secret().clone().0`)
and then logs that map at debug level (line 88:
`tracing::debug!("Using headers: [{:?}]", outgoing_headers)`).  The `http`
crate's `Debug` for `HeaderValue` prints the raw bytes whenever the value
is not marked sensitive, and values built with `HeaderValue::from_str` —
as in `get_secret_header_from_env` (config.rs lines 282-292) — are not.
The `secrecy` wrapper's own `Debug` (`[REDACTED]`, config.rs lines 46-62)
is bypassed at this point because the value has already been exposed. -/

/-- The log line emitted at opsgenie.rs line 88 as a function of the
configured credential string: the `Debug` rendering of a `HeaderMap`
holding the single entry `authorization: <credential>` with the value not
marked sensitive. -/
def using_headers_log_line (credential : String) : String :=
  "Using headers: [" ++ "\x7b\"authorization\": \"" ++ credential ++ "\"\x7d" ++ "]"

/-! ## Concrete scenarios used by counterexamples and witnesses -/

/-- Dial oracle for a dispatch scenario: `+1` is accepted by the provider,
every other number fails at the transport level. -/
def c3Dial : String → Except UtilError TwilioResponse := fun n =>
  if n = "+1" then Except.ok { status := "active" }
  else Except.error (UtilError.HttpRequest "connection reset")

/-- Contact oracle for a roster scenario: `bob` has one voice number,
everyone else (in particular `alice`) has an empty contact list. -/
def c4Contacts : String → Except UtilError (List UserContact) := fun user =>
  if user = "bob" then Except.ok [{ «to» := "49-111", id := "id1", contactMethod := "voice", enabled := true }]
  else Except.ok []

/-- Contact oracle for a single-recipient roster scenario: every user has
one voice number. -/
def c4WitnessContacts : String → Except UtilError (List UserContact) := fun _ =>
  Except.ok [{ «to» := "49-111", id := "id1", contactMethod := "voice", enabled := true }]

/-- Contact oracle for a roster scenario with a duplicated number across a
voice and an sms contact. -/
def c7ContactsOf : String → Except UtilError (List UserContact) := fun _ =>
  Except.ok [{ «to» := "49-123-456", id := "cA", contactMethod := "voice", enabled := true },
             { «to» := "49-123-456", id := "cB", contactMethod := "sms", enabled := true }]

/-! ## Order lemmas for the lexicographic string comparison -/

theorem charListLe_total : ∀ as bs : List Char,
    charListLe as bs = true ∨ charListLe bs as = true := by
  intro as
  induction as with
  | nil => intro bs; left; rfl
  | cons a as ih =>
    intro bs
    cases bs with
    | nil => right; rfl
    | cons b bs =>
      by_cases hab : a = b
      · subst hab
        simpa [charListLe] using ih bs
      · have hba : b ≠ a := fun h => hab h.symm
        rcases lt_or_gt_of_ne hab with h | h
        · left; simp [charListLe, hab, h]
        · right; simp [charListLe, hba, h]

theorem charListLe_trans : ∀ as bs cs : List Char,
    charListLe as bs = true → charListLe bs cs = true → charListLe as cs = true := by
  intro as
  induction as with
  | nil => intro bs cs h1 h2; rfl
  | cons a as ih =>
    intro bs cs h1 h2
    cases bs with
    | nil => simp [charListLe] at h1
    | cons b bs =>
      cases cs with
      | nil => simp [charListLe] at h2
      | cons c cs =>
        by_cases hab : a = b
        · subst hab
          rw [charListLe, if_pos rfl] at h1
          by_cases hac : a = c
          · subst hac
            rw [charListLe, if_pos rfl] at h2 ⊢
            exact ih bs cs h1 h2
          · rw [charListLe, if_neg hac] at h2 ⊢
            exact h2
        · rw [charListLe, if_neg hab] at h1
          have haltb : a < b := of_decide_eq_true h1
          by_cases hbc : b = c
          · subst hbc
            rw [charListLe, if_neg hab]
            exact h1
          · rw [charListLe, if_neg hbc] at h2
            have hbltc : b < c := of_decide_eq_true h2
            have haltc : a < c := lt_trans haltb hbltc
            rw [charListLe, if_neg (ne_of_lt haltc)]
            exact decide_eq_true haltc

theorem charListLe_antisymm : ∀ as bs : List Char,
    charListLe as bs = true → charListLe bs as = true → as = bs := by
  intro as
  induction as with
  | nil =>
    intro bs h1 h2
    cases bs with
    | nil => rfl
    | cons b bs => simp [charListLe] at h2
  | cons a as ih =>
    intro bs h1 h2
    cases bs with
    | nil => simp [charListLe] at h1
    | cons b bs =>
      by_cases hab : a = b
      · subst hab
        rw [charListLe, if_pos rfl] at h1 h2
        rw [ih bs h1 h2]
      · have hba : b ≠ a := fun h => hab h.symm
        rw [charListLe, if_neg hab] at h1
        rw [charListLe, if_neg hba] at h2
        exact absurd (of_decide_eq_true h2) (lt_asymm (of_decide_eq_true h1))

theorem strLe_total (a b : String) : strLe a b = true ∨ strLe b a = true :=
  charListLe_total a.data b.data

theorem strLe_trans {a b c : String} (h1 : strLe a b = true) (h2 : strLe b c = true) :
    strLe a c = true :=
  charListLe_trans a.data b.data c.data h1 h2

theorem strLe_antisymm {a b : String} (h1 : strLe a b = true) (h2 : strLe b a = true) :
    a = b :=
  String.ext (charListLe_antisymm a.data b.data h1 h2)

/-! ## Sorting and dedup lemmas -/

theorem perm_insertSorted (a : String) : ∀ l, (insertSorted a l).Perm (a :: l)
  | [] => List.Perm.refl _
  | b :: l => by
    rw [insertSorted]
    split_ifs
    · exact List.Perm.refl _
    · exact ((perm_insertSorted a l).cons b).trans (List.Perm.swap a b l)

theorem perm_vecSort : ∀ l, (vecSort l).Perm l
  | [] => List.Perm.refl _
  | b :: l => (perm_insertSorted b (vecSort l)).trans ((perm_vecSort l).cons b)

theorem sorted_insertSorted (a : String) (l : List String)
    (h : l.Pairwise (fun x y => strLe x y = true)) :
    (insertSorted a l).Pairwise (fun x y => strLe x y = true) := by
  induction l with
  | nil => simp [insertSorted]
  | cons b l ih =>
    rcases List.pairwise_cons.mp h with ⟨hb, hl⟩
    rw [insertSorted]
    split_ifs with hab
    · refine List.pairwise_cons.mpr ⟨?_, h⟩
      intro x hx
      rcases List.mem_cons.mp hx with rfl | hx
      · exact hab
      · exact strLe_trans hab (hb x hx)
    · have hba : strLe b a = true := (strLe_total a b).resolve_left hab
      refine List.pairwise_cons.mpr ⟨?_, ih hl⟩
      intro x hx
      have hx2 : x ∈ a :: l := (perm_insertSorted a l).mem_iff.mp hx
      rcases List.mem_cons.mp hx2 with rfl | hx3
      · exact hba
      · exact hb x hx3

theorem sorted_vecSort : ∀ l, (vecSort l).Pairwise (fun x y => strLe x y = true)
  | [] => List.Pairwise.nil
  | b :: l => sorted_insertSorted b (vecSort l) (sorted_vecSort l)

theorem vecDedup_sublist : ∀ l : List String, (vecDedup l).Sublist l := by
  intro l
  induction l with
  | nil => simp [vecDedup]
  | cons a l ih =>
    cases l with
    | nil => simp [vecDedup]
    | cons b rest =>
      rw [vecDedup]
      split_ifs with hab
      · exact ih.cons a
      · exact ih.cons₂ a

theorem mem_vecDedup (x : String) : ∀ l : List String, x ∈ l → x ∈ vecDedup l := by
  intro l
  induction l with
  | nil => intro hx; cases hx
  | cons a l ih =>
    cases l with
    | nil => intro hx; simpa [vecDedup] using hx
    | cons b rest =>
      intro hx
      rw [vecDedup]
      split_ifs with hab
      · rcases List.mem_cons.mp hx with rfl | hx2
        · subst hab
          exact ih (List.mem_cons_self x rest)
        · exact ih hx2
      · rcases List.mem_cons.mp hx with rfl | hx2
        · exact List.mem_cons_self x _
        · exact List.mem_cons_of_mem a (ih hx2)

theorem pairwise_vecDedup : ∀ l : List String,
    l.Pairwise (fun x y => strLe x y = true) →
    (vecDedup l).Pairwise (fun x y => strLe x y = true ∧ x ≠ y) := by
  intro l
  induction l with
  | nil => intro h; simp [vecDedup]
  | cons a l ih =>
    cases l with
    | nil => intro h; simp [vecDedup]
    | cons b rest =>
      intro h
      rcases List.pairwise_cons.mp h with ⟨ha, htail⟩
      rw [vecDedup]
      split_ifs with hab
      · exact ih htail
      · refine List.pairwise_cons.mpr ⟨?_, ih htail⟩
        intro x hx
        have hx2 : x ∈ b :: rest := List.Sublist.mem hx (vecDedup_sublist (b :: rest))
        refine ⟨ha x hx2, ?_⟩
        rcases List.mem_cons.mp hx2 with rfl | hxr
        · exact hab
        · intro hax
          subst hax
          have hbx : strLe b a = true := (List.pairwise_cons.mp htail).1 a hxr
          exact hab (strLe_antisymm (ha b (List.mem_cons_self b rest)) hbx)

/-! ## Aggregation lemmas -/

theorem any_isSuccessCall_iff (l : List DialNumberResult) :
    l.any isSuccessCall = true ↔ ∃ n, DialNumberResult.Success n ∈ l := by
  rw [List.any_eq_true]
  constructor
  · rintro ⟨x, hx, hpx⟩
    cases x with
    | Success n => exact ⟨n, hx⟩
    | Failure n e => simp [isSuccessCall] at hpx
    | Unknown n s => simp [isSuccessCall] at hpx
  · rintro ⟨n, hn⟩
    exact ⟨DialNumberResult.Success n, hn, rfl⟩

theorem any_isUnknownCall_iff (l : List DialNumberResult) :
    l.any isUnknownCall = true ↔ ∃ n s, DialNumberResult.Unknown n s ∈ l := by
  rw [List.any_eq_true]
  constructor
  · rintro ⟨x, hx, hpx⟩
    cases x with
    | Success n => simp [isUnknownCall] at hpx
    | Failure n e => simp [isUnknownCall] at hpx
    | Unknown n s => exact ⟨n, s, hx⟩
  · rintro ⟨n, s, hn⟩
    exact ⟨DialNumberResult.Unknown n s, hn, rfl⟩

theorem any_isFailureCall_iff (l : List DialNumberResult) :
    l.any isFailureCall = true ↔ ∃ n e, DialNumberResult.Failure n e ∈ l := by
  rw [List.any_eq_true]
  constructor
  · rintro ⟨x, hx, hpx⟩
    cases x with
    | Success n => simp [isFailureCall] at hpx
    | Failure n e => exact ⟨n, e, hx⟩
    | Unknown n s => simp [isFailureCall] at hpx
  · rintro ⟨n, e, hn⟩
    exact ⟨DialNumberResult.Failure n e, hn, rfl⟩

theorem any_congr_perm {l l2 : List DialNumberResult} (h : l.Perm l2)
    (p : DialNumberResult → Bool) : l.any p = l2.any p := by
  cases hx : l2.any p
  · rw [List.any_eq_false] at hx ⊢
    intro x hxl
    exact hx x (h.mem_iff.mp hxl)
  · rw [List.any_eq_true] at hx ⊢
    rcases hx with ⟨x, hxl, hpx⟩
    exact ⟨x, h.mem_iff.mpr hxl, hpx⟩

/-! ## Roster-resolution lemmas -/

theorem build_result_list_entries (contactsOf : String → Except UtilError (List UserContact)) :
    ∀ recs l, build_result_list contactsOf recs = Except.ok l →
      ∀ entry ∈ l, ∃ contacts, contactsOf entry.name = Except.ok contacts ∧
        entry.phone = get_phone_number contacts := by
  intro recs
  induction recs with
  | nil =>
    intro l h entry he
    rw [build_result_list] at h
    cases h
    cases he
  | cons user rest ih =>
    intro l h entry he
    rw [build_result_list] at h
    cases hc : get_phone_number_for contactsOf user with
    | error e => rw [hc] at h; cases h
    | ok ph =>
      rw [hc] at h
      cases ht : build_result_list contactsOf rest with
      | error e => rw [ht] at h; cases h
      | ok tail =>
        rw [ht] at h
        cases h
        rcases List.mem_cons.mp he with rfl | he2
        · rw [get_phone_number_for] at hc
          cases hcu : contactsOf user with
          | error e => rw [hcu] at hc; cases hc
          | ok contacts =>
            rw [hcu] at hc
            simp only [Except.map] at hc
            cases hc
            exact ⟨contacts, rfl, rfl⟩
        · exact ih tail ht entry he2

theorem build_result_list_ne_nil (contactsOf : String → Except UtilError (List UserContact))
    (recs : List String) (first : UserPhoneNumber) (rest : List UserPhoneNumber)
    (h : build_result_list contactsOf recs = Except.ok (first :: rest)) : recs ≠ [] := by
  intro hrecs
  subst hrecs
  rw [build_result_list] at h
  cases h

theorem get_oncall_number_ok_shape (persons : Except UtilError OnCallResult)
    (contactsOf : String → Except UtilError (List UserContact)) (info : AlertInfo)
    (h : get_oncall_number persons contactsOf = Except.ok info) :
    ∃ p first rest, persons = Except.ok p ∧
      build_result_list contactsOf p.data.on_call_recipients = Except.ok (first :: rest) ∧
      info.full_information = first :: rest ∧
      info.username = first.name ∧
      first.phone.head? = some info.phone_number := by
  cases persons with
  | error e => rw [get_oncall_number] at h; cases h
  | ok p =>
    rw [get_oncall_number] at h
    cases hhead : p.data.on_call_recipients.head? with
    | none => rw [hhead] at h; cases h
    | some u =>
      rw [hhead] at h
      cases hb : build_result_list contactsOf p.data.on_call_recipients with
      | error e => rw [hb] at h; cases h
      | ok result_list =>
        rw [hb] at h
        cases result_list with
        | nil => simp only [List.head?] at h; cases h
        | cons first rest =>
          simp only [List.head?] at h
          cases hfp : first.phone with
          | nil =>
            rw [hfp] at h
            cases h
          | cons ph tl =>
            rw [hfp] at h
            cases h
            exact ⟨p, first, rest, rfl, hb, rfl, rfl, by rw [hfp]; rfl⟩

/-! ## Claim theorems -/

theorem update_overall_result_eq (r : AlertResult) :
    (update_overall_result r).overall_result =
      if r.detailed_result.any isSuccessCall &&
          (r.detailed_result.any isUnknownCall || r.detailed_result.any isFailureCall) then
        OverallResult.PartialSuccess
      else if r.detailed_result.any isSuccessCall &&
          !(r.detailed_result.any isUnknownCall || r.detailed_result.any isFailureCall) then
        OverallResult.Success
      else
        OverallResult.Failure := rfl

/-- C1: for every sequence of dial outcomes, `update_overall_result` derives
`Success` exactly when there is at least one `Success` and neither an
`Unknown` nor a `Failure`; `PartialSuccess` exactly when there is at least
one `Success` together with an `Unknown` or a `Failure`; and `Failure`
exactly otherwise, i.e. when there is no `Success` at all — which covers
the all-`Unknown` case and the empty sequence. -/
theorem c1_overall_result_characterization (r : AlertResult) :
    ((update_overall_result r).overall_result = OverallResult.Success ↔
        (∃ n, DialNumberResult.Success n ∈ r.detailed_result) ∧
          ¬(∃ n s, DialNumberResult.Unknown n s ∈ r.detailed_result) ∧
          ¬(∃ n e, DialNumberResult.Failure n e ∈ r.detailed_result)) ∧
    ((update_overall_result r).overall_result = OverallResult.PartialSuccess ↔
        (∃ n, DialNumberResult.Success n ∈ r.detailed_result) ∧
          ((∃ n s, DialNumberResult.Unknown n s ∈ r.detailed_result) ∨
            (∃ n e, DialNumberResult.Failure n e ∈ r.detailed_result))) ∧
    ((update_overall_result r).overall_result = OverallResult.Failure ↔
        ¬(∃ n, DialNumberResult.Success n ∈ r.detailed_result)) := by
  have hs := any_isSuccessCall_iff r.detailed_result
  have hu := any_isUnknownCall_iff r.detailed_result
  have hf := any_isFailureCall_iff r.detailed_result
  rw [update_overall_result_eq]
  cases hsb : r.detailed_result.any isSuccessCall <;>
    cases hub : r.detailed_result.any isUnknownCall <;>
      cases hfb : r.detailed_result.any isFailureCall <;>
        rw [hsb] at hs <;> rw [hub] at hu <;> rw [hfb] at hf <;>
          simp only [eq_self_iff_true, true_iff, Bool.false_eq_true, false_iff] at hs hu hf <;>
            simp [hsb, hub, hfb, hs, hu, hf]

/-- C8: the aggregate classification is invariant under permutation of the
per-number result list, so the completion order of the concurrent dial
results does not affect the overall outcome. -/
theorem c8_overall_result_perm_invariant (r r2 : AlertResult)
    (h : r.detailed_result.Perm r2.detailed_result) :
    (update_overall_result r).overall_result = (update_overall_result r2).overall_result := by
  rw [update_overall_result_eq, update_overall_result_eq,
    any_congr_perm h isSuccessCall, any_congr_perm h isUnknownCall,
    any_congr_perm h isFailureCall]

theorem c8_overall_result_perm_invariant_witness :
    (update_overall_result
        { overall_result := OverallResult.Success
          detailed_result := [DialNumberResult.Success "+1",
            DialNumberResult.Failure "+2" "connection reset"] }).overall_result =
      (update_overall_result
        { overall_result := OverallResult.Success
          detailed_result := [DialNumberResult.Failure "+2" "connection reset",
            DialNumberResult.Success "+1"] }).overall_result :=
  c8_overall_result_perm_invariant _ _
    (List.Perm.swap (DialNumberResult.Failure "+2" "connection reset")
      (DialNumberResult.Success "+1") [])

/-- C9: per-number classification — a transport-level failure maps to
`Failure` with the number and the rendered error, an HTTP success whose
status field is the literal `"active"` maps to `Success` with the number,
and an HTTP success with any other status maps to `Unknown` with the
number and that status. -/
theorem c9_dial_response_classification (number : String) (e : UtilError) (status : String)
    (h : status ≠ "active") :
    classifyDialResult number (Except.error e) =
        DialNumberResult.Failure number (errToString e) ∧
    classifyDialResult number (Except.ok { status := "active" }) =
        DialNumberResult.Success number ∧
    classifyDialResult number (Except.ok { status := status }) =
        DialNumberResult.Unknown number status := by
  refine ⟨rfl, rfl, ?_⟩
  simp [classifyDialResult, h]

theorem c9_dial_response_classification_witness :
    classifyDialResult "+1" (Except.error (UtilError.HttpRequest "connection reset")) =
        DialNumberResult.Failure "+1" "failed to execute request" ∧
    classifyDialResult "+1" (Except.ok { status := "active" }) =
        DialNumberResult.Success "+1" ∧
    classifyDialResult "+1" (Except.ok { status := "queued" }) =
        DialNumberResult.Unknown "+1" "queued" :=
  c9_dial_response_classification "+1" (UtilError.HttpRequest "connection reset") "queued"
    (by decide)

/-- C2 (counterexample): phone-number normalization is NOT idempotent — a
second application prepends another `+`: normalizing `"1"` gives `"+1"`,
but normalizing `"+1"` gives `"++1"`. -/
theorem c2_not_idempotent_counterexample :
    format_phone_number (format_phone_number "1") ≠ format_phone_number "1" := by
  decide

/-- C2 (amended): `format_phone_number` always produces a string beginning
with `+` and containing no `-` (the separator character it strips), but it
is not idempotent: since the output never contains `-`, a second
application only prepends another `+`. -/
theorem c2_format_phone_number_shape (x : String) :
    (format_phone_number x).data.head? = some '+' ∧
    '-' ∉ (format_phone_number x).data ∧
    format_phone_number (format_phone_number x) = "+" ++ format_phone_number x := by
  have hdata : ∀ y : String, (format_phone_number y).data =
      '+' :: y.data.filter (fun c => c ≠ '-') := by
    intro y
    rw [format_phone_number]
    rw [String.data_append]
    rfl
  refine ⟨?_, ?_, ?_⟩
  · rw [hdata]; rfl
  · rw [hdata]
    intro hmem
    rcases List.mem_cons.mp hmem with h | h
    · cases h
    · have := (List.mem_filter.mp h).2
      simp at this
  · rw [format_phone_number]
    have hfilter : (format_phone_number x).data.filter (fun c => c ≠ '-') =
        (format_phone_number x).data := by
      rw [List.filter_eq_self]
      intro a ha
      rw [hdata] at ha
      rcases List.mem_cons.mp ha with rfl | ha2
      · decide
      · exact (List.mem_filter.mp ha2).2
    rw [hfilter]

/-- C3 (counterexample): `alert` CAN fail outright — when joining the
configured dialer base URL with the workflow id fails (as it does for any
cannot-be-a-base base URL, e.g. a `mailto:` URL accepted by `Url::parse`
at startup), `alert` returns `Err(Error::BuildUrl)` instead of an
aggregate result, for any list of numbers and any dial outcomes. -/
theorem c3_alert_fails_on_bad_url_counterexample :
    alert ["+49111"] (Except.error UrlParseError.RelativeUrlWithCannotBeABaseBase)
        (fun _ => Except.ok { status := "active" }) =
      Except.error (TwilioError.BuildUrl UrlParseError.RelativeUrlWithCannotBeABaseBase) :=
  rfl

/-- C3 (amended): whenever the workflow URL join succeeds, `alert` always
returns an `AlertResult`, and every per-number transport failure is
captured inline as a `DialNumberResult::Failure` in `detailed_result`
rather than propagated as a whole-call error; the only whole-call failure
is the `BuildUrl` error of the URL join. -/
theorem c3_alert_failures_inline (numbers : List String) (u : Url)
    (dial : String → Except UtilError TwilioResponse) :
    (∃ res, alert numbers (Except.ok u) dial = Except.ok res) ∧
    (∀ res, alert numbers (Except.ok u) dial = Except.ok res →
      ∀ n e, n ∈ numbers → dial n = Except.error e →
        DialNumberResult.Failure n (errToString e) ∈ res.detailed_result) := by
  constructor
  · exact ⟨_, rfl⟩
  · intro res hres n e hn hne
    have hdet : res.detailed_result =
        numbers.map (fun number => classifyDialResult number (dial number)) := by
      rw [alert] at hres
      cases hres
      simp [update_overall_result, List.map_map]
    rw [hdet]
    refine List.mem_map.mpr ⟨n, hn, ?_⟩
    rw [hne]
    rfl

theorem c3_alert_failures_inline_witness :
    DialNumberResult.Failure "+2" "failed to execute request" ∈
      (AlertResult.mk OverallResult.PartialSuccess
        [DialNumberResult.Success "+1",
         DialNumberResult.Failure "+2" "failed to execute request"]).detailed_result :=
  (c3_alert_failures_inline ["+1", "+2"]
      { raw := "https://studio.twilio.com/v2/Flows/WF123/Executions/" } c3Dial).2
    (AlertResult.mk OverallResult.PartialSuccess
      [DialNumberResult.Success "+1",
       DialNumberResult.Failure "+2" "failed to execute request"])
    (by rfl) "+2" (UtilError.HttpRequest "connection reset") (by decide) (by rfl)

/-- C4 (counterexample): with recipients `["alice", "bob"]`, where alice has
no contacts and bob has a voice number, resolution does NOT pick bob (the
first recipient with a resolvable number) as primary — it fails with
`NoPhoneNumber{alice}` even though alice is not the single remaining
candidate. -/
theorem c4_first_entry_without_number_fails_counterexample :
    get_oncall_number
        (Except.ok { data := { on_call_recipients := ["alice", "bob"] } }) c4Contacts =
      Except.error (OpsgenieError.NoPhoneNumber "alice") := by
  rfl

/-- C4 (amended): roster resolution assembles `AlertInfo` with the FIRST
resolved entry — in provider order — as primary: on success,
`primary_username` is the first entry's name, `primary_phone_number` is
the first entry's first number, and the full resolved list is included;
and whenever the first resolved entry has an empty phone list, resolution
fails with `NoPhoneNumber` for that entry's user, regardless of any later
entries. -/
theorem c4_primary_is_first_entry (persons : Except UtilError OnCallResult)
    (contactsOf : String → Except UtilError (List UserContact)) :
    (∀ info, get_oncall_number persons contactsOf = Except.ok info →
        info.full_information.head?.map UserPhoneNumber.name = some info.username ∧
        (info.full_information.head?.bind (fun entry => entry.phone.head?)) =
          some info.phone_number ∧
        ∃ p, persons = Except.ok p ∧
          build_result_list contactsOf p.data.on_call_recipients =
            Except.ok info.full_information) ∧
    (∀ p first rest, persons = Except.ok p →
        build_result_list contactsOf p.data.on_call_recipients = Except.ok (first :: rest) →
        first.phone = [] →
        get_oncall_number persons contactsOf =
          Except.error (OpsgenieError.NoPhoneNumber first.name)) := by
  constructor
  · intro info h
    rcases get_oncall_number_ok_shape persons contactsOf info h with
      ⟨p, first, rest, hp, hb, hfull, hname, hphone⟩
    refine ⟨?_, ?_, p, hp, ?_⟩
    · rw [hfull, hname]; rfl
    · rw [hfull]
      simpa using hphone
    · rw [hfull]; exact hb
  · intro p first rest hp hb hempty
    subst hp
    rw [get_oncall_number]
    have hne : p.data.on_call_recipients ≠ [] :=
      build_result_list_ne_nil contactsOf p.data.on_call_recipients first rest hb
    cases hrecs : p.data.on_call_recipients with
    | nil => exact absurd hrecs hne
    | cons u us =>
      rw [hrecs] at hb
      simp only [List.head?]
      rw [hb]
      simp only [List.head?]
      rw [hempty]

theorem c4_primary_is_first_entry_witness :
    (AlertInfo.mk "alice" "+49111"
        [UserPhoneNumber.mk "alice" ["+49111"]]).full_information.head?.map
          UserPhoneNumber.name =
        some (AlertInfo.mk "alice" "+49111"
          [UserPhoneNumber.mk "alice" ["+49111"]]).username ∧
    ((AlertInfo.mk "alice" "+49111"
        [UserPhoneNumber.mk "alice" ["+49111"]]).full_information.head?.bind
          (fun entry => entry.phone.head?)) =
        some (AlertInfo.mk "alice" "+49111"
          [UserPhoneNumber.mk "alice" ["+49111"]]).phone_number ∧
    ∃ p, (Except.ok { data := { on_call_recipients := ["alice"] } } :
            Except UtilError OnCallResult) = Except.ok p ∧
      build_result_list c4WitnessContacts p.data.on_call_recipients =
        Except.ok (AlertInfo.mk "alice" "+49111"
          [UserPhoneNumber.mk "alice" ["+49111"]]).full_information :=
  (c4_primary_is_first_entry
      (Except.ok { data := { on_call_recipients := ["alice"] } }) c4WitnessContacts).1
    (AlertInfo.mk "alice" "+49111" [UserPhoneNumber.mk "alice" ["+49111"]]) (by rfl)

/-- C5 (violation): the debug log line emitted by `get_oncall_number`
(opsgenie.rs line 88) renders the outgoing header map, which contains the
exposed credential inserted at line 85; `HeaderValue`'s `Debug` shows the
raw value because values built with `HeaderValue::from_str` are not marked
sensitive.  Hence the textual output depends on — and contains verbatim —
the secret credential: two configurations differing only in the secret
produce different log output, refuting the redaction hyperproperty. -/
theorem c5_credential_dependent_log_output :
    using_headers_log_line "tokenA" ≠ using_headers_log_line "tokenB" ∧
    using_headers_log_line "hunter2" =
      "Using headers: [\x7b\"authorization\": \"hunter2\"\x7d]" :=
  ⟨by decide, rfl⟩

/-- C6: for every contact oracle, roster resolution with an empty on-call
recipient list returns the `NoOnCallPerson` error — not a panic, and not a
success with an empty roster. -/
theorem c6_empty_roster_yields_no_one_on_call
    (contactsOf : String → Except UtilError (List UserContact)) :
    get_oncall_number (Except.ok { data := { on_call_recipients := [] } }) contactsOf =
      Except.error OpsgenieError.NoOnCallPerson :=
  rfl

/-- C7: the phone list produced for a recipient by `get_phone_number` is
sorted (by the total lexicographic string order) and duplicate-free, and
consequently every roster entry in a successful resolution result has a
sorted, duplicate-free phone list. -/
theorem c7_phone_lists_sorted_nodup :
    (∀ contacts : List UserContact,
        List.Sorted (fun a b => strLe a b = true) (get_phone_number contacts) ∧
          (get_phone_number contacts).Nodup) ∧
    (∀ (persons : Except UtilError OnCallResult)
        (contactsOf : String → Except UtilError (List UserContact)) (info : AlertInfo),
        get_oncall_number persons contactsOf = Except.ok info →
        ∀ entry ∈ info.full_information,
          List.Sorted (fun a b => strLe a b = true) entry.phone ∧ entry.phone.Nodup) := by
  have hmain : ∀ contacts : List UserContact,
      List.Sorted (fun a b => strLe a b = true) (get_phone_number contacts) ∧
        (get_phone_number contacts).Nodup := by
    intro contacts
    have hp := pairwise_vecDedup
      (vecSort ((contacts.filter (fun user_contact =>
          user_contact.contactMethod == "voice" || user_contact.contactMethod == "sms")).map
        (fun user_contact => format_phone_number user_contact.«to»)))
      (sorted_vecSort _)
    exact ⟨hp.imp (fun h => h.1), hp.imp (fun h => h.2)⟩
  refine ⟨hmain, ?_⟩
  intro persons contactsOf info h entry hentry
  rcases get_oncall_number_ok_shape persons contactsOf info h with
    ⟨p, first, rest, hp, hb, hfull, hname, hphone⟩
  rw [hfull] at hentry
  rcases build_result_list_entries contactsOf _ _ hb entry hentry with ⟨contacts, hcu, hph⟩
  rw [hph]
  exact hmain contacts

theorem c7_phone_lists_sorted_nodup_witness :
    List.Sorted (fun a b => strLe a b = true)
        (UserPhoneNumber.mk "alice" ["+49123456"]).phone ∧
      (UserPhoneNumber.mk "alice" ["+49123456"]).phone.Nodup :=
  c7_phone_lists_sorted_nodup.2
    (Except.ok { data := { on_call_recipients := ["alice"] } }) c7ContactsOf
    (AlertInfo.mk "alice" "+49123456" [UserPhoneNumber.mk "alice" ["+49123456"]])
    (by rfl) (UserPhoneNumber.mk "alice" ["+49123456"]) (List.mem_singleton.mpr rfl)

/-- C10: contact filtering during roster resolution checks only the
`contactMethod` field — the provider's `enabled` flag is ignored — so for
every contact whose method is `"voice"` or `"sms"`, its normalized number
is included in the recipient's phone list, also when `enabled == false`. -/
theorem c10_enabled_flag_ignored (contacts : List UserContact) (c : UserContact)
    (hmem : c ∈ contacts)
    (hmethod : c.contactMethod = "voice" ∨ c.contactMethod = "sms") :
    format_phone_number c.«to» ∈ get_phone_number contacts := by
  simp only [get_phone_number]
  apply mem_vecDedup
  apply (perm_vecSort _).mem_iff.mpr
  refine List.mem_map.mpr ⟨c, ?_, rfl⟩
  refine List.mem_filter.mpr ⟨hmem, ?_⟩
  rcases hmethod with h | h <;> simp [h]

theorem c10_enabled_flag_ignored_witness :
    format_phone_number "49-999" ∈
      get_phone_number
        [{ «to» := "49-999", id := "idX", contactMethod := "voice", enabled := false }] :=
  c10_enabled_flag_ignored
    [{ «to» := "49-999", id := "idX", contactMethod := "voice", enabled := false }]
    { «to» := "49-999", id := "idX", contactMethod := "voice", enabled := false }
    (List.mem_singleton.mpr rfl) (Or.inl rfl)
